import Mathlib

/-!
Verification of the time-tracker ledger core (`src/app.py`).

The embedding below translates the data model and operations of `app.py`
into Lean:

* calendar dates are embedded twice, exactly as the program uses them: as
  `Date` records (year/month/day, the shape `datetime.date` exposes to
  `month_start` / `month_end_exclusive`) and as proleptic-Gregorian day
  ordinals (`toOrdinal`, the total order underlying SQL `date(...)`
  comparisons, `timedelta` arithmetic and `date.weekday()`);
* wall-clock instants are seconds (ℤ); hour amounts are exact rationals ℚ
  (Python floats are modelled by exact arithmetic, rounding is out of model);
* the three SQLite tables `logs`, `active_sessions`, `notifications`
  become three lists inside `AppState`;
* each Streamlit button/form handler becomes a state-passing function; a
  handler that the UI refuses to run (button not rendered / validation
  message shown) is modelled as returning an error value and the unchanged
  state.
-/

/-! ## Calendar model (Python `datetime.date` semantics) -/

/-- Embeds Python's Gregorian leap-year rule (`calendar.isleap`):
`y % 4 == 0 and (y % 100 != 0 or y % 400 == 0)`.  Lean's `%` on ℤ is `emod`,
which agrees with Python's `%` for the positive divisors used here. -/
def isLeap (y : ℤ) : Prop := y % 4 = 0 ∧ (y % 100 ≠ 0 ∨ y % 400 = 0)

instance (y : ℤ) : Decidable (isLeap y) := by unfold isLeap; infer_instance

/-- Number of days in month `m` of year `y` (Python `calendar.monthrange`). -/
def daysInMonth (y m : ℤ) : ℤ :=
  if m = 2 then (if isLeap y then 29 else 28)
  else if m = 4 ∨ m = 6 ∨ m = 9 ∨ m = 11 then 30 else 31

/-- Days in year `y` strictly before month `m` (cumulative month lengths). -/
def daysBeforeMonth (y m : ℤ) : ℤ :=
  let L : ℤ := if isLeap y then 1 else 0
  if m ≤ 1 then 0 else if m = 2 then 31 else if m = 3 then 59 + L
  else if m = 4 then 90 + L else if m = 5 then 120 + L
  else if m = 6 then 151 + L else if m = 7 then 181 + L
  else if m = 8 then 212 + L else if m = 9 then 243 + L
  else if m = 10 then 273 + L else if m = 11 then 304 + L else 334 + L

/-- Days before January 1st of year `y`, counting from 0001-01-01 = day 1
(Python `date.toordinal` convention; `/` on ℤ is Euclidean division, which
coincides with Python's floor division for the positive divisors used). -/
def daysBeforeYear (y : ℤ) : ℤ :=
  365 * (y - 1) + (y - 1) / 4 - (y - 1) / 100 + (y - 1) / 400

/-- Calendar date, the shape `datetime.date` exposes to the app code. -/
structure Date where
  year : ℤ
  month : ℤ
  day : ℤ
deriving DecidableEq

/-- Embeds Python `date.toordinal()`: proleptic Gregorian ordinal, with
0001-01-01 mapped to 1.  SQL `date(a) <= date(b)` comparisons and
`timedelta(days=k)` arithmetic in the app are exactly order/translation on
these ordinals. -/
def toOrdinal (d : Date) : ℤ :=
  daysBeforeYear d.year + daysBeforeMonth d.year d.month + d.day

/-- Validity of a `Date` in the range `datetime.date` accepts. -/
def ValidDate (d : Date) : Prop :=
  1 ≤ d.year ∧ 1 ≤ d.month ∧ d.month ≤ 12 ∧ 1 ≤ d.day ∧
    d.day ≤ daysInMonth d.year d.month

instance (d : Date) : Decidable (ValidDate d) := by unfold ValidDate; infer_instance

/-- Embeds Python `date.weekday()` expressed on ordinals: Monday = 0.
Ordinal 1 (0001-01-01) is a Monday. -/
def weekday (n : ℤ) : ℤ := (n + 6) % 7

/-- Embeds `week_start` (app.py:54-55): `d - timedelta(days=d.weekday())`,
on ordinals. -/
def week_start (n : ℤ) : ℤ := n - weekday n

/-- Embeds `month_start` (app.py:57-58): `date(d.year, d.month, 1)`. -/
def month_start (d : Date) : Date := ⟨d.year, d.month, 1⟩

/-- Embeds `month_end_exclusive` (app.py:60-63): first day of the next
month, rolling December over to January of the next year. -/
def month_end_exclusive (d : Date) : Date :=
  if d.month = 12 then ⟨d.year + 1, 1, 1⟩ else ⟨d.year, d.month + 1, 1⟩

/-- Linear month counter (months since year 0), used to state that
`month_end_exclusive` lands exactly one calendar month later. -/
def monthIndex (d : Date) : ℤ := 12 * d.year + (d.month - 1)

/-! ## Ledger model (`logs` table and its read operations) -/

/-- Row of the `logs` table (app.py:99-109): an immutable dated signed-hour
fact.  `created_at` is the audit instant (seconds), `log_date` the
attribution-date ordinal. -/
structure LedgerEntry where
  created_at : ℤ
  log_date : ℤ
  person : String
  hours : ℚ
  notes : String
  source : String
deriving DecidableEq

/-- Embeds `clamp_nonneg` (app.py:47-52): `max(0.0, x)` (the float-parse
failure branch is unreachable for the in-model rational inputs). -/
def clamp_nonneg (x : ℚ) : ℚ := max 0 x

/-- Embeds `sum_hours_raw` (app.py:249-261): SQL
`SUM(hours) WHERE person=? AND date(log_date) in [start, end)`, with
`COALESCE` giving 0 on an empty match set (an empty list sums to 0). -/
def sum_hours_raw (logs : List LedgerEntry) (person : String)
    (start_d end_exclusive : ℤ) : ℚ :=
  ((logs.filter (fun e =>
      e.person == person && decide (start_d ≤ e.log_date) &&
        decide (e.log_date < end_exclusive))).map (fun e => e.hours)).sum

/-- Embeds `sum_hours` (app.py:263-264): the read-time non-negative floor
over the raw sum. -/
def sum_hours (logs : List LedgerEntry) (person : String)
    (start_d end_exclusive : ℤ) : ℚ :=
  clamp_nonneg (sum_hours_raw logs person start_d end_exclusive)

/-- The fixed, closed set of people (app.py:21). -/
def PEOPLE : List String := ["Drew", "Carson", "Kaden", "Chandler"]

/-- Embeds `sum_hours_all` (app.py:266-281): per-person grouped sums over a
half-open date interval.  The Python dict starts as `{p: 0.0 for p in
PEOPLE}` and every grouped row overwrites its key with `clamp_nonneg(v)`
(possibly adding keys outside `PEOPLE`); the association list below has the
same keys and values. -/
def sum_hours_all (logs : List LedgerEntry) (start_d end_exclusive : ℤ) :
    List (String × ℚ) :=
  let matched := ((logs.filter (fun e =>
      decide (start_d ≤ e.log_date) && decide (e.log_date < end_exclusive))).map
        (fun e => e.person)).dedup
  (PEOPLE ++ matched.filter (fun p => !(PEOPLE.contains p))).map
    (fun p => (p, if matched.contains p
      then clamp_nonneg (sum_hours_raw logs p start_d end_exclusive) else 0))

/-! ## Mutable state: `active_sessions`, `notifications`, full app state -/

/-- Row of the `active_sessions` table (app.py:152-159): `person` is the
primary key, `start_at` the clock-in instant (seconds), `log_date` the
attribution-date ordinal captured at clock-in. -/
structure ActiveSession where
  person : String
  start_at : ℤ
  log_date : ℤ
deriving DecidableEq

/-- Row of the `notifications` table (app.py:161-173). -/
structure Notif where
  created_at : ℤ
  person : String
  log_date : ℤ
  delta_hours : ℚ
  reason : String
  source : String
  seen : Bool
deriving DecidableEq

/-- The durable store: the three tables of the database. -/
structure AppState where
  logs : List LedgerEntry
  active_sessions : List ActiveSession
  notifs : List Notif
deriving DecidableEq

/-- Embeds `get_active_session` (app.py:208-216): `SELECT ... WHERE
person=?` against the primary-keyed table. -/
def get_active_session (s : AppState) (person : String) : Option ActiveSession :=
  s.active_sessions.find? (fun r => r.person == person)

/-- Embeds `log_event` (app.py:188-196): inserts one row into `logs` with
`created_at = now`. -/
def log_event (s : AppState) (now : ℤ) (person : String) (log_date : ℤ)
    (hours : ℚ) (notes source : String) : AppState :=
  { s with logs := s.logs ++ [⟨now, log_date, person, hours, notes, source⟩] }

/-- Embeds `add_notification` (app.py:198-206): inserts one row into
`notifications` with `seen = 0`. -/
def add_notification (s : AppState) (now : ℤ) (person : String) (log_date : ℤ)
    (delta_hours : ℚ) (reason source : String) : AppState :=
  { s with notifs := s.notifs ++ [⟨now, person, log_date, delta_hours, reason, source, false⟩] }

/-- Embeds `start_session` (app.py:218-227): `INSERT ... ON CONFLICT(person)
DO UPDATE`, i.e. an upsert on the primary key. -/
def start_session (s : AppState) (now : ℤ) (person : String) (log_date : ℤ) :
    AppState :=
  { s with active_sessions :=
      if s.active_sessions.any (fun r => r.person == person) then
        s.active_sessions.map (fun r =>
          if r.person == person then ⟨person, now, log_date⟩ else r)
      else s.active_sessions ++ [⟨person, now, log_date⟩] }

/-- Embeds `stop_session` (app.py:229-246): returns `(None, 0.0)` untouched
when no session is active; otherwise computes `elapsed_hours =
max(0.0, (now - start_at) / 3600)` and deletes the session row. -/
def stop_session (s : AppState) (now : ℤ) (person : String) :
    (Option ℤ × ℚ) × AppState :=
  match get_active_session s person with
  | none => ((none, 0), s)
  | some sess =>
      let elapsed_hours : ℚ := max 0 (((now - sess.start_at : ℤ) : ℚ) / 3600)
      ((some sess.log_date, elapsed_hours),
       { s with active_sessions :=
          s.active_sessions.filter (fun r => !(r.person == person)) })

/-- Embeds the live-timer read (app.py:397-402): `max(0, now - start_at)`
seconds while running, else 0; a pure read. -/
def elapsed_sec (s : AppState) (now : ℤ) (person : String) : ℚ :=
  match get_active_session s person with
  | some a => max 0 ((now - a.start_at : ℤ) : ℚ)
  | none => 0

/-- Error values for the timer operations.  The UI renders the Clock In
button only while no session is running and the Clock Out button only while
one is (app.py:412-429), so the rejected attempt performs nothing; the spec
names these two refusals `AlreadyRunningError` / `NotRunningError`. -/
inductive TimerError where
  | alreadyRunning
  | notRunning
deriving DecidableEq

/-- Embeds the Clock In button handler (app.py:412-415): only reachable
when `get_active_session` returned `None`; on success calls
`start_session(person, selected_date)`. -/
def clock_in (s : AppState) (now : ℤ) (person : String) (selected_date : ℤ) :
    Except TimerError Unit × AppState :=
  if (get_active_session s person).isSome then (.error .alreadyRunning, s)
  else (.ok (), start_session s now person selected_date)

/-- Embeds the Clock Out button handler (app.py:417-429): calls
`stop_session`, re-clamps `elapsed_hours = max(0.0, elapsed_hours)` and
writes one `timer` ledger row only `if log_date_str and elapsed_hours > 0`;
an attempt with no running session reaches the `(None, 0.0)` branch of
`stop_session` and writes nothing. -/
def clock_out (s : AppState) (now : ℤ) (person : String) :
    Except TimerError ℚ × AppState :=
  let r := stop_session s now person
  match r.1.1 with
  | none => (.error .notRunning, r.2)
  | some d =>
      let elapsed_hours := max 0 r.1.2
      if 0 < elapsed_hours then
        (.ok elapsed_hours, log_event r.2 now person d elapsed_hours "Clocked session" "timer")
      else (.ok elapsed_hours, r.2)

/-! ## Manual submission (`manual_form` handler, app.py:517-564) -/

/-- Embeds Python `str.strip()` with the default whitespace argument. -/
def pyStrip (s : String) : String :=
  String.mk (((s.toList.dropWhile Char.isWhitespace).reverse.dropWhile
    Char.isWhitespace).reverse)

/-- Outcome of a manual submission: `reasonRequired` is the
`st.error("Reason is required ...")` path (the spec's `ValidationError`),
`clampedToZero` the `st.warning(... nothing was applied)` rejection, and
`applied h` the successful write of `h` hours. -/
inductive ManualOutcome where
  | reasonRequired
  | clampedToZero
  | applied (hours : ℚ)
deriving DecidableEq

/-- Config flag (app.py:30): prevents the month total going below 0. -/
def ENFORCE_MONTH_FLOOR : Bool := true

/-- Config flag (app.py:31): also prevents the day total going below 0. -/
def ENFORCE_DAY_FLOOR : Bool := true

/-- Embeds the `manual_form` submit handler (app.py:517-564): reject an
empty (stripped) reason; otherwise run the SAFETY FLOOR LOGIC — clamp at
month level (`applied = -month_before` when the month would go negative),
then at day level, reject when the result is within `1e-9` of zero, else
write the ledger row and its notification.  `m_date + timedelta(days=1)`
is ordinal successor. -/
def submit_manual (s : AppState) (now : ℤ) (person : String) (m_date : Date)
    (m_hours : ℚ) (m_reason : String) : ManualOutcome × AppState :=
  if pyStrip m_reason = "" then (.reasonRequired, s)
  else
    let applied0 := m_hours
    let month_before := sum_hours_raw s.logs person
      (toOrdinal (month_start m_date)) (toOrdinal (month_end_exclusive m_date))
    let applied1 :=
      if ENFORCE_MONTH_FLOOR ∧ month_before + applied0 < 0 then -month_before
      else applied0
    let d0 := toOrdinal m_date
    let day_before := sum_hours_raw s.logs person d0 (d0 + 1)
    let applied2 :=
      if ENFORCE_DAY_FLOOR ∧ day_before + applied1 < 0 then -day_before
      else applied1
    if |applied2| < 1 / 1000000000 then (.clampedToZero, s)
    else (.applied applied2,
      add_notification
        (log_event s now person d0 applied2 (pyStrip m_reason) "manual_add")
        now person d0 applied2 (pyStrip m_reason) "manual_add")

/-! ## Helper lemmas about the raw sums -/

/-- The filtered SQL sum equals a per-entry conditional sum. -/
lemma sum_hours_raw_eq (logs : List LedgerEntry) (p : String) (a b : ℤ) :
    sum_hours_raw logs p a b =
      (logs.map (fun e =>
        if e.person = p ∧ a ≤ e.log_date ∧ e.log_date < b then e.hours else 0)).sum := by
  induction logs with
  | nil => simp [sum_hours_raw]
  | cons e t ih =>
      simp only [sum_hours_raw, List.filter_cons] at ih ⊢
      by_cases h1 : e.person = p
      · by_cases h2 : a ≤ e.log_date
        · by_cases h3 : e.log_date < b
          · simp [h1, h2, h3, ih]
          · simp [h1, h2, h3, ih]
        · simp [h1, h2, ih]
      · simp [h1, ih]

/-- Sums of two pointwise maps add to the sum of the pointwise addition. -/
lemma map_sum_add {α : Type} (l : List α) (f g : α → ℚ) :
    (l.map f).sum + (l.map g).sum = (l.map (fun x => f x + g x)).sum := by
  induction l with
  | nil => simp
  | cons x t ih => simp only [List.map_cons, List.sum_cons]; linarith

/-- Appending ledger rows adds their contribution to any raw sum. -/
lemma sum_hours_raw_append (l1 l2 : List LedgerEntry) (p : String) (a b : ℤ) :
    sum_hours_raw (l1 ++ l2) p a b =
      sum_hours_raw l1 p a b + sum_hours_raw l2 p a b := by
  simp [sum_hours_raw, List.filter_append]

/-- Raw sum over a single ledger row. -/
lemma sum_hours_raw_singleton (e : LedgerEntry) (p : String) (a b : ℤ) :
    sum_hours_raw [e] p a b =
      if e.person = p ∧ a ≤ e.log_date ∧ e.log_date < b then e.hours else 0 := by
  rw [sum_hours_raw_eq]; simp

/-- Raw sums are additive across adjacent half-open date intervals. -/
lemma sum_hours_raw_additive (logs : List LedgerEntry) (p : String)
    (a b c : ℤ) (hab : a ≤ b) (hbc : b ≤ c) :
    sum_hours_raw logs p a b + sum_hours_raw logs p b c =
      sum_hours_raw logs p a c := by
  rw [sum_hours_raw_eq, sum_hours_raw_eq, sum_hours_raw_eq, map_sum_add]
  have hfun : ∀ e : LedgerEntry,
      ((if e.person = p ∧ a ≤ e.log_date ∧ e.log_date < b then e.hours else 0) +
        (if e.person = p ∧ b ≤ e.log_date ∧ e.log_date < c then e.hours else 0)) =
      (if e.person = p ∧ a ≤ e.log_date ∧ e.log_date < c then e.hours else 0) := by
    intro e
    by_cases hp : e.person = p
    · by_cases hd : e.log_date < b
      · have h1 : ¬ b ≤ e.log_date := not_le.mpr hd
        by_cases h2 : a ≤ e.log_date
        · simp [hp, hd, h1, h2, lt_of_lt_of_le hd hbc]
        · simp [hp, h1, h2]
      · have h1 : b ≤ e.log_date := not_lt.mp hd
        have h2 : a ≤ e.log_date := le_trans hab h1
        simp [hp, hd, h1, h2]
    · simp [hp]
  exact congrArg List.sum (List.map_congr_left (fun e _ => hfun e))

/-- The two-stage floor clamp (month then day) of the manual handler equals
the single `max` formula of the spec whenever the raw day total is
non-negative and bounded by the raw month total. -/
lemma clamp_chain (h M D : ℚ) (hD : 0 ≤ D) (hDM : D ≤ M) :
    (if D + (if M + h < 0 then -M else h) < 0 then -D
     else (if M + h < 0 then -M else h)) =
    if h < 0 then max h (-D) else h := by
  by_cases hneg : h < 0
  · by_cases hm : M + h < 0
    · have h1 : h < -M := by linarith
      have h2 : h ≤ -D := by linarith
      rw [if_pos hm]
      by_cases hd : D + -M < 0
      · rw [if_pos hd, if_pos hneg, max_eq_right h2]
      · have : M ≤ D := by linarith
        have hMD : M = D := le_antisymm (by linarith) hDM
        rw [if_neg hd, if_pos hneg, max_eq_right h2, hMD]
    · have h1 : -M ≤ h := by linarith
      rw [if_neg hm]
      by_cases hd : D + h < 0
      · have : h < -D := by linarith
        rw [if_pos hd, if_pos hneg, max_eq_right (le_of_lt this)]
      · have : -D ≤ h := by linarith
        rw [if_neg hd, if_pos hneg, max_eq_left this]
  · have h0 : 0 ≤ h := not_lt.mp hneg
    have hm : ¬ M + h < 0 := by push_neg; linarith
    have hd : ¬ D + h < 0 := by push_neg; linarith
    rw [if_neg hm, if_neg hd, if_neg hneg]

/-! ## Calendar lemmas -/

/-- A valid date lies inside its own month bucket, on ordinals. -/
lemma month_bucket_mem (d : Date) (hv : ValidDate d) :
    toOrdinal (month_start d) ≤ toOrdinal d ∧
    toOrdinal d < toOrdinal (month_end_exclusive d) := by
  obtain ⟨y, m, day⟩ := d
  obtain ⟨hy, h1, h2, h3, h4⟩ := hv
  simp only at h1 h2 h3 h4
  constructor
  · simp only [toOrdinal, month_start]
    linarith
  · by_cases hm12 : m = 12
    · subst hm12
      simp only [toOrdinal, month_end_exclusive, if_pos]
      simp only [daysBeforeMonth, daysBeforeYear, daysInMonth] at h4 ⊢
      norm_num at h4 ⊢
      split_ifs at h4 ⊢ <;> simp only [isLeap] at * <;> omega
    · have hm11 : m ≤ 11 := by omega
      simp only [toOrdinal, month_end_exclusive, if_neg hm12]
      interval_cases m <;>
        simp only [daysBeforeMonth, daysBeforeYear, daysInMonth] at h4 ⊢ <;>
        norm_num at h4 ⊢ <;>
        (try split_ifs at h4 ⊢) <;> (try simp only [isLeap] at *) <;> omega

/-! ## Claim theorems -/

/-- C8: `week_bounds` and `month_bounds` are deterministic pure calendar
functions.  For every ordinal `n`, `week_start n` is a Monday (ISO
convention, Monday = 0) and the week bucket `[week_start n, week_start n + 7)`
contains exactly the dates sharing that week start; for every valid date
`d`, the month bucket runs from the first day of `d`'s month to the first
day of the following calendar month (December rolling over to January of
the next year, captured by `monthIndex` increasing by exactly one), and `d`
itself lies inside that half-open bucket. -/
theorem c8_calendar_bounds (n m : ℤ) (d : Date) (hv : ValidDate d) :
    weekday (week_start n) = 0 ∧
    (week_start n ≤ n ∧ n < week_start n + 7) ∧
    (week_start m = week_start n ↔ (week_start n ≤ m ∧ m < week_start n + 7)) ∧
    (month_start d).day = 1 ∧ monthIndex (month_start d) = monthIndex d ∧
    (month_end_exclusive d).day = 1 ∧
    monthIndex (month_end_exclusive d) = monthIndex d + 1 ∧
    toOrdinal (month_start d) ≤ toOrdinal d ∧
    toOrdinal d < toOrdinal (month_end_exclusive d) := by
  refine ⟨?_, ?_, ?_, rfl, rfl, ?_, ?_, (month_bucket_mem d hv).1, (month_bucket_mem d hv).2⟩
  · simp only [weekday, week_start]; omega
  · simp only [week_start, weekday]; omega
  · simp only [week_start, weekday]; omega
  · unfold month_end_exclusive; split_ifs <;> rfl
  · unfold month_end_exclusive monthIndex; split_ifs with h <;> simp <;> omega

/-- Witness for C8 at 2024-01-05 (ordinal 738890, a Friday) and the
December rollover date 2024-12-31. -/
theorem c8_calendar_bounds_witness :
    ValidDate ⟨2024, 12, 31⟩ ∧
    (weekday (week_start 738890) = 0 ∧
      (week_start 738890 ≤ 738890 ∧ 738890 < week_start 738890 + 7) ∧
      (week_start 738888 = week_start 738890 ↔
        (week_start 738890 ≤ 738888 ∧ 738888 < week_start 738890 + 7)) ∧
      (month_start ⟨2024, 12, 31⟩).day = 1 ∧
      monthIndex (month_start ⟨2024, 12, 31⟩) = monthIndex ⟨2024, 12, 31⟩ ∧
      (month_end_exclusive ⟨2024, 12, 31⟩).day = 1 ∧
      monthIndex (month_end_exclusive ⟨2024, 12, 31⟩) = monthIndex ⟨2024, 12, 31⟩ + 1 ∧
      toOrdinal (month_start ⟨2024, 12, 31⟩) ≤ toOrdinal ⟨2024, 12, 31⟩ ∧
      toOrdinal ⟨2024, 12, 31⟩ < toOrdinal (month_end_exclusive ⟨2024, 12, 31⟩)) :=
  ⟨by decide, c8_calendar_bounds 738890 738888 ⟨2024, 12, 31⟩ (by decide)⟩

/-- C4: for every person, every half-open date interval and every ledger
state — including adversarial ones — `sum_hours` (the spec's
`period_total`) is non-negative, every entry of `sum_hours_all` (the spec's
`period_totals_all`) carries a non-negative value, and an empty match set
yields 0 rather than an error. -/
theorem c4_period_totals_nonneg :
    (∀ (logs : List LedgerEntry) (p : String) (a b : ℤ), 0 ≤ sum_hours logs p a b) ∧
    (∀ (logs : List LedgerEntry) (a b : ℤ) (pr : String × ℚ),
      pr ∈ sum_hours_all logs a b → 0 ≤ pr.2) ∧
    (∀ (logs : List LedgerEntry) (p : String) (a b : ℤ),
      (∀ e ∈ logs, ¬(e.person = p ∧ a ≤ e.log_date ∧ e.log_date < b)) →
        sum_hours logs p a b = 0) := by
  refine ⟨fun logs p a b => le_max_left 0 _, ?_, ?_⟩
  · intro logs a b pr hpr
    simp only [sum_hours_all, List.mem_map] at hpr
    obtain ⟨q, hq, rfl⟩ := hpr
    dsimp only
    split_ifs
    · exact le_max_left 0 _
    · exact le_refl 0
  · intro logs p a b hnone
    have hraw : sum_hours_raw logs p a b = 0 := by
      rw [sum_hours_raw_eq]
      apply List.sum_eq_zero
      intro x hx
      simp only [List.mem_map] at hx
      obtain ⟨e, he, rfl⟩ := hx
      exact if_neg (hnone e he)
    simp [sum_hours, clamp_nonneg, hraw]

/-- Witness for C4: an empty ledger matches nothing and totals 0. -/
theorem c4_period_totals_nonneg_witness :
    sum_hours [] "Carson" 738885 738890 = 0 :=
  c4_period_totals_nonneg.2.2 [] "Carson" 738885 738890 (by simp)

/-- C2: for every person whose timer is already running, an attempted
clock-in is rejected (the spec's `AlreadyRunningError`) and mutates
nothing: the stored session row — start instant and attribution date — is
identical before and after, and the live elapsed reading at any later
instant is unchanged, so no elapsed time is lost or restarted. -/
theorem c2_clock_in_while_running (s : AppState) (now now2 d : ℤ) (p : String)
    (sess : ActiveSession) (hrun : get_active_session s p = some sess) :
    clock_in s now p d = (.error .alreadyRunning, s) ∧
    get_active_session (clock_in s now p d).2 p = some sess ∧
    elapsed_sec (clock_in s now p d).2 now2 p = elapsed_sec s now2 p := by
  have h1 : clock_in s now p d = (.error .alreadyRunning, s) := by
    simp [clock_in, hrun]
  exact ⟨h1, by rw [h1]; exact hrun, by rw [h1]⟩

/-- Witness for C2: Drew is clocked in since instant 100; a second clock-in
at instant 200 is rejected and leaves the session row intact. -/
theorem c2_clock_in_while_running_witness :
    get_active_session ⟨[], [⟨"Drew", 100, 738890⟩], []⟩ "Drew" = some ⟨"Drew", 100, 738890⟩ ∧
    (clock_in ⟨[], [⟨"Drew", 100, 738890⟩], []⟩ 200 "Drew" 738891 =
        (.error .alreadyRunning, ⟨[], [⟨"Drew", 100, 738890⟩], []⟩) ∧
      get_active_session (clock_in ⟨[], [⟨"Drew", 100, 738890⟩], []⟩ 200 "Drew" 738891).2 "Drew" =
        some ⟨"Drew", 100, 738890⟩ ∧
      elapsed_sec (clock_in ⟨[], [⟨"Drew", 100, 738890⟩], []⟩ 200 "Drew" 738891).2 300 "Drew" =
        elapsed_sec ⟨[], [⟨"Drew", 100, 738890⟩], []⟩ 300 "Drew") :=
  ⟨by decide, c2_clock_in_while_running _ 200 300 738891 "Drew" ⟨"Drew", 100, 738890⟩ (by decide)⟩

/-- C6: for every person whose timer is not running, an attempted clock-out
is rejected (the spec's `NotRunningError`) and the whole state — in
particular the ledger — is unchanged. -/
theorem c6_clock_out_not_running (s : AppState) (now : ℤ) (p : String)
    (hnot : get_active_session s p = none) :
    clock_out s now p = (.error .notRunning, s) := by
  simp [clock_out, stop_session, hnot]

/-- Witness for C6: Kaden has a ledger row but no running session; a
clock-out attempt errors and leaves the ledger untouched. -/
theorem c6_clock_out_not_running_witness :
    get_active_session ⟨[⟨0, 738890, "Kaden", 2, "x", "timer"⟩], [], []⟩ "Kaden" = none ∧
    clock_out ⟨[⟨0, 738890, "Kaden", 2, "x", "timer"⟩], [], []⟩ 500 "Kaden" =
      (.error .notRunning, ⟨[⟨0, 738890, "Kaden", 2, "x", "timer"⟩], [], []⟩) :=
  ⟨by decide, c6_clock_out_not_running _ 500 "Kaden" (by decide)⟩

/-- C7: a manual submission whose reason strips to the empty string fails
with the validation rejection and writes nothing: the state after the call
is the state before, so no ledger row and no notification is created. -/
theorem c7_manual_empty_reason (s : AppState) (now : ℤ) (p : String)
    (m_date : Date) (h : ℚ) (reason : String) (hr : pyStrip reason = "") :
    submit_manual s now p m_date h reason = (.reasonRequired, s) := by
  unfold submit_manual
  rw [if_pos hr]

/-- Witness for C7: a whitespace-only reason is rejected with no writes. -/
theorem c7_manual_empty_reason_witness :
    pyStrip "   " = "" ∧
    submit_manual ⟨[], [], []⟩ 0 "Chandler" ⟨2024, 1, 5⟩ 2 "   " =
      (.reasonRequired, ⟨[], [], []⟩) :=
  ⟨by decide, c7_manual_empty_reason _ 0 "Chandler" ⟨2024, 1, 5⟩ 2 "   " (by decide)⟩

/-! ## Manual-submission characterization -/

/-- The applied-hours computation of the SAFETY FLOOR LOGIC
(app.py:521-543), extracted: month-level clamp followed by day-level clamp
of the requested delta. -/
def manual_clamped (logs : List LedgerEntry) (p : String) (dd : Date) (h : ℚ) : ℚ :=
  let M := sum_hours_raw logs p (toOrdinal (month_start dd)) (toOrdinal (month_end_exclusive dd))
  let a1 := if M + h < 0 then -M else h
  let D := sum_hours_raw logs p (toOrdinal dd) (toOrdinal dd + 1)
  if D + a1 < 0 then -D else a1

/-- With a non-empty stripped reason, the manual handler computes
`manual_clamped`, rejects it when within `1e-9` of zero, and otherwise
writes the ledger row and its notification. -/
lemma submit_manual_spec (s : AppState) (now : ℤ) (p : String) (dd : Date)
    (h : ℚ) (reason : String) (hr : ¬ pyStrip reason = "") :
    submit_manual s now p dd h reason =
      (if |manual_clamped s.logs p dd h| < 1 / 1000000000 then (.clampedToZero, s)
       else (.applied (manual_clamped s.logs p dd h),
        add_notification
          (log_event s now p (toOrdinal dd) (manual_clamped s.logs p dd h)
            (pyStrip reason) "manual_add")
          now p (toOrdinal dd) (manual_clamped s.logs p dd h)
          (pyStrip reason) "manual_add")) := by
  simp only [submit_manual, manual_clamped, ENFORCE_MONTH_FLOOR, ENFORCE_DAY_FLOOR,
    eq_self_iff_true, true_and]
  rw [if_neg hr]

/-- Under non-negative raw day totals bounded by the raw month total, the
two-stage clamp is the spec formula: `max(h, -day_total)` for negative
requests, the identity for non-negative ones. -/
lemma manual_clamped_eq_max (logs : List LedgerEntry) (p : String) (dd : Date) (h : ℚ)
    (hday : 0 ≤ sum_hours_raw logs p (toOrdinal dd) (toOrdinal dd + 1))
    (hdm : sum_hours_raw logs p (toOrdinal dd) (toOrdinal dd + 1) ≤
      sum_hours_raw logs p (toOrdinal (month_start dd)) (toOrdinal (month_end_exclusive dd))) :
    manual_clamped logs p dd h =
      if h < 0 then max h (-(sum_hours_raw logs p (toOrdinal dd) (toOrdinal dd + 1)))
      else h := by
  have := clamp_chain h
    (sum_hours_raw logs p (toOrdinal (month_start dd)) (toOrdinal (month_end_exclusive dd)))
    (sum_hours_raw logs p (toOrdinal dd) (toOrdinal dd + 1)) hday hdm
  simpa [manual_clamped] using this

/-- C1: for a manual submission with a usable reason, in any state whose
raw day total is non-negative and bounded by the raw month total (true of
every state the app itself produces), the applied delta is
`max(h, -day_total)` when `h < 0` and `h` unchanged when `h ≥ 0`; when that
clamped delta is within `1e-9` of zero the submission is rejected outright
and the state — ledger and notifications — is untouched, otherwise exactly
one ledger row (and its notification) with the clamped delta is written.
The Drew and Carson scenarios of the claim are instances (see the
witness). -/
theorem c1_manual_floor_clamp (s : AppState) (now : ℤ) (p : String) (dd : Date)
    (h a : ℚ) (reason : String)
    (hr : ¬ pyStrip reason = "")
    (hday : 0 ≤ sum_hours_raw s.logs p (toOrdinal dd) (toOrdinal dd + 1))
    (hdm : sum_hours_raw s.logs p (toOrdinal dd) (toOrdinal dd + 1) ≤
      sum_hours_raw s.logs p (toOrdinal (month_start dd)) (toOrdinal (month_end_exclusive dd)))
    (ha : a = if h < 0
      then max h (-(sum_hours_raw s.logs p (toOrdinal dd) (toOrdinal dd + 1)))
      else h) :
    (|a| < 1 / 1000000000 → submit_manual s now p dd h reason = (.clampedToZero, s)) ∧
    (¬ |a| < 1 / 1000000000 → submit_manual s now p dd h reason =
      (.applied a,
        add_notification (log_event s now p (toOrdinal dd) a (pyStrip reason) "manual_add")
          now p (toOrdinal dd) a (pyStrip reason) "manual_add")) := by
  have hmc : manual_clamped s.logs p dd h = a := by
    rw [manual_clamped_eq_max s.logs p dd h hday hdm, ha]
  rw [submit_manual_spec s now p dd h reason hr, hmc]
  constructor
  · intro ht; rw [if_pos ht]
  · intro ht; rw [if_neg ht]

/-- Witness for C1: Drew with 5.0 hours on 2024-02-10 submits −7.0, which
is clamped to −5.0 and leaves the day total at exactly 0; Carson with no
entries submits −2.0 on 2024-01-05, which is clamped to 0 and rejected with
nothing written. -/
theorem c1_manual_floor_clamp_witness :
    (submit_manual ⟨[⟨0, toOrdinal ⟨2024, 2, 10⟩, "Drew", 5, "prior", "manual_add"⟩], [], []⟩
        1 "Drew" ⟨2024, 2, 10⟩ (-7) "correction" =
      (.applied (-5),
        add_notification
          (log_event ⟨[⟨0, toOrdinal ⟨2024, 2, 10⟩, "Drew", 5, "prior", "manual_add"⟩], [], []⟩
            1 "Drew" (toOrdinal ⟨2024, 2, 10⟩) (-5) (pyStrip "correction") "manual_add")
          1 "Drew" (toOrdinal ⟨2024, 2, 10⟩) (-5) (pyStrip "correction") "manual_add")) ∧
    sum_hours
      ([⟨0, toOrdinal ⟨2024, 2, 10⟩, "Drew", 5, "prior", "manual_add"⟩] ++
        [⟨1, toOrdinal ⟨2024, 2, 10⟩, "Drew", -5, "correction", "manual_add"⟩])
      "Drew" (toOrdinal ⟨2024, 2, 10⟩) (toOrdinal ⟨2024, 2, 10⟩ + 1) = 0 ∧
    submit_manual ⟨[], [], []⟩ 0 "Carson" ⟨2024, 1, 5⟩ (-2) "oops" =
      (.clampedToZero, ⟨[], [], []⟩) := by
  refine ⟨?_, ?_, ?_⟩
  · exact (c1_manual_floor_clamp _ 1 "Drew" ⟨2024, 2, 10⟩ (-7) (-5) "correction"
      (by decide)
      (by rw [sum_hours_raw_eq]; norm_num)
      (by rw [sum_hours_raw_eq, sum_hours_raw_eq]; norm_num [toOrdinal, month_start,
        month_end_exclusive, daysBeforeYear, daysBeforeMonth, isLeap])
      (by rw [sum_hours_raw_eq]; norm_num)).2 (by norm_num)
  · rw [sum_hours, clamp_nonneg, sum_hours_raw_eq]; norm_num
  · exact (c1_manual_floor_clamp _ 0 "Carson" ⟨2024, 1, 5⟩ (-2) 0 "oops"
      (by decide)
      (by rw [sum_hours_raw_eq]; norm_num)
      (by rw [sum_hours_raw_eq, sum_hours_raw_eq]; norm_num)
      (by rw [sum_hours_raw_eq]; norm_num)).1 (by norm_num)

/-- C9: the write-time floor keeps the affected raw day and raw month
totals non-negative — for every accepted manual submission (`applied`
outcome), starting from a state where the person's raw day and raw month
totals are non-negative, the raw (unclamped) ledger sums for the affected
day and month remain `≥ 0` after the entry is written. -/
theorem c9_floor_invariant (s : AppState) (now : ℤ) (p : String) (dd : Date)
    (h q : ℚ) (reason : String) (s2 : AppState)
    (hv : ValidDate dd)
    (hday : 0 ≤ sum_hours_raw s.logs p (toOrdinal dd) (toOrdinal dd + 1))
    (hmon : 0 ≤ sum_hours_raw s.logs p
      (toOrdinal (month_start dd)) (toOrdinal (month_end_exclusive dd)))
    (hsub : submit_manual s now p dd h reason = (.applied q, s2)) :
    0 ≤ sum_hours_raw s2.logs p (toOrdinal dd) (toOrdinal dd + 1) ∧
    0 ≤ sum_hours_raw s2.logs p
      (toOrdinal (month_start dd)) (toOrdinal (month_end_exclusive dd)) := by
  by_cases hr : pyStrip reason = ""
  · unfold submit_manual at hsub
    rw [if_pos hr] at hsub
    simp at hsub
  · rw [submit_manual_spec s now p dd h reason hr] at hsub
    by_cases hz : |manual_clamped s.logs p dd h| < 1 / 1000000000
    · rw [if_pos hz] at hsub; simp at hsub
    · rw [if_neg hz] at hsub
      rw [Prod.mk.injEq] at hsub
      obtain ⟨hq, hs⟩ := hsub
      rw [← hs]
      simp only [add_notification, log_event]
      rw [sum_hours_raw_append, sum_hours_raw_singleton,
        sum_hours_raw_append, sum_hours_raw_singleton]
      obtain ⟨hm0, hm1⟩ := month_bucket_mem dd hv
      constructor
      · rw [if_pos ⟨rfl, le_refl _, lt_add_one _⟩]
        simp only [manual_clamped] at *
        split_ifs with h1 h2 <;> linarith
      · rw [if_pos ⟨rfl, hm0, hm1⟩]
        simp only [manual_clamped] at *
        split_ifs with h1 h2 <;> linarith

/-- Witness for C9: after Drew's clamped −5.0 correction on 2024-02-10,
both the raw day sum and the raw month sum are still non-negative. -/
theorem c9_floor_invariant_witness :
    0 ≤ sum_hours_raw
      ([⟨0, toOrdinal ⟨2024, 2, 10⟩, "Drew", 5, "prior", "manual_add"⟩] ++
        [⟨1, toOrdinal ⟨2024, 2, 10⟩, "Drew", -5, "correction", "manual_add"⟩])
      "Drew" (toOrdinal ⟨2024, 2, 10⟩) (toOrdinal ⟨2024, 2, 10⟩ + 1) ∧
    0 ≤ sum_hours_raw
      ([⟨0, toOrdinal ⟨2024, 2, 10⟩, "Drew", 5, "prior", "manual_add"⟩] ++
        [⟨1, toOrdinal ⟨2024, 2, 10⟩, "Drew", -5, "correction", "manual_add"⟩])
      "Drew" (toOrdinal (month_start ⟨2024, 2, 10⟩))
      (toOrdinal (month_end_exclusive ⟨2024, 2, 10⟩)) := by
  have h := c9_floor_invariant
    ⟨[⟨0, toOrdinal ⟨2024, 2, 10⟩, "Drew", 5, "prior", "manual_add"⟩], [], []⟩
    1 "Drew" ⟨2024, 2, 10⟩ (-7) (-5) "correction"
    ⟨[⟨0, toOrdinal ⟨2024, 2, 10⟩, "Drew", 5, "prior", "manual_add"⟩,
        ⟨1, toOrdinal ⟨2024, 2, 10⟩, "Drew", -5, "correction", "manual_add"⟩], [],
      [⟨1, "Drew", toOrdinal ⟨2024, 2, 10⟩, -5, "correction", "manual_add", false⟩]⟩
    (by decide)
    (by rw [sum_hours_raw_eq]; norm_num)
    (by rw [sum_hours_raw_eq]; norm_num [toOrdinal, month_start,
      month_end_exclusive, daysBeforeYear, daysBeforeMonth, isLeap])
    (by rw [submit_manual, if_neg (by decide)]
        norm_num [sum_hours_raw, toOrdinal, month_start, month_end_exclusive,
          daysBeforeYear, daysBeforeMonth, isLeap, ENFORCE_MONTH_FLOOR,
          ENFORCE_DAY_FLOOR, log_event, add_notification, List.filter, pyStrip]
        decide)
  simpa using h

/-- C3 counterexample: with a ledger holding +5 hours on day 10 and −5
hours on day 20 for Drew, `sum_hours` over the adjacent buckets `[0,15)`
and `[15,30)` gives `5 + 0 = 5`, but over `[0,30)` gives `max(0,0) = 0`:
the claimed additivity of the clamped `period_total` fails for arbitrary
ledger contents (the gap is 5 hours, far beyond floating tolerance). -/
theorem c3_additivity_counterexample :
    ¬ (sum_hours [⟨0, 10, "Drew", 5, "session", "timer"⟩,
          ⟨1, 20, "Drew", -5, "fix", "manual_add"⟩] "Drew" 0 15 +
        sum_hours [⟨0, 10, "Drew", 5, "session", "timer"⟩,
          ⟨1, 20, "Drew", -5, "fix", "manual_add"⟩] "Drew" 15 30 =
        sum_hours [⟨0, 10, "Drew", 5, "session", "timer"⟩,
          ⟨1, 20, "Drew", -5, "fix", "manual_add"⟩] "Drew" 0 30) := by
  rw [sum_hours, sum_hours, sum_hours, clamp_nonneg, clamp_nonneg, clamp_nonneg,
    sum_hours_raw_eq, sum_hours_raw_eq, sum_hours_raw_eq]
  norm_num

/-- C3 amended: additivity across adjacent half-open buckets holds exactly
for the raw sums on any ledger, and for the clamped `period_total` whenever
the raw sums of both sub-intervals are non-negative — which is the case in
every state the app's write-time floors produce. -/
theorem c3_additivity_amended :
    (∀ (logs : List LedgerEntry) (p : String) (a b c : ℤ), a ≤ b → b ≤ c →
      sum_hours_raw logs p a b + sum_hours_raw logs p b c = sum_hours_raw logs p a c) ∧
    (∀ (logs : List LedgerEntry) (p : String) (a b c : ℤ), a ≤ b → b ≤ c →
      0 ≤ sum_hours_raw logs p a b → 0 ≤ sum_hours_raw logs p b c →
      sum_hours logs p a b + sum_hours logs p b c = sum_hours logs p a c) := by
  refine ⟨fun logs p a b c hab hbc => sum_hours_raw_additive logs p a b c hab hbc, ?_⟩
  intro logs p a b c hab hbc h1 h2
  rw [sum_hours, sum_hours, sum_hours, clamp_nonneg, clamp_nonneg, clamp_nonneg,
    max_eq_right h1, max_eq_right h2,
    ← sum_hours_raw_additive logs p a b c hab hbc,
    max_eq_right (by linarith)]

/-- Witness for the amended C3: with non-negative sub-bucket sums (5 and 3
hours), clamped totals add up across `[0,15)`, `[15,30)` and `[0,30)`. -/
theorem c3_additivity_amended_witness :
    sum_hours [⟨0, 10, "Drew", 5, "session", "timer"⟩,
        ⟨1, 20, "Drew", 3, "more", "timer"⟩] "Drew" 0 15 +
      sum_hours [⟨0, 10, "Drew", 5, "session", "timer"⟩,
        ⟨1, 20, "Drew", 3, "more", "timer"⟩] "Drew" 15 30 =
      sum_hours [⟨0, 10, "Drew", 5, "session", "timer"⟩,
        ⟨1, 20, "Drew", 3, "more", "timer"⟩] "Drew" 0 30 :=
  c3_additivity_amended.2 _ "Drew" 0 15 30 (by norm_num) (by norm_num)
    (by rw [sum_hours_raw_eq]; norm_num)
    (by rw [sum_hours_raw_eq]; norm_num)

/-- Deleting a person's session rows leaves no findable session row. -/
lemma find?_filter_not_person (l : List ActiveSession) (p : String) :
    (l.filter (fun r => !(r.person == p))).find? (fun r => r.person == p) = none := by
  apply List.find?_eq_none.mpr
  intro x hx
  simp only [List.mem_filter] at hx
  simpa using hx.2

/-- C5 counterexample: Carson's timer is running (started at instant 3600)
and a clock-out at instant 0 — clock skew, clamped elapsed 0 — succeeds,
resets the timer, but writes no ledger entry at all (the ledger stays
empty), contradicting the claim that every successful clock-out of a
running timer emits exactly one `timer` entry with the clamped delta. -/
theorem c5_zero_elapsed_counterexample :
    (get_active_session ⟨[], [⟨"Carson", 3600, 738890⟩], []⟩ "Carson").isSome = true ∧
    clock_out ⟨[], [⟨"Carson", 3600, 738890⟩], []⟩ 0 "Carson" =
      (.ok 0, ⟨[], [], []⟩) := by
  have hr : get_active_session (⟨[], [⟨"Carson", 3600, 738890⟩], []⟩ : AppState) "Carson" =
      some ⟨"Carson", 3600, 738890⟩ := by decide
  refine ⟨by decide, ?_⟩
  simp only [clock_out, stop_session, hr]
  norm_num [List.filter]

/-- C5 amended: for every person whose timer is running, whenever the
clamped elapsed hours are positive, clock-out emits exactly one ledger
entry (origin `timer`, delta the clamped elapsed hours, the fixed note
"Clocked session", date the attribution date captured at clock-in — the
ambient selected-day control plays no part), resets the timer to
not-running, leaves notifications alone and returns the elapsed hours; a
clock-out whose clamped elapsed hours are zero resets the timer but writes
nothing (see the counterexample and C10). -/
theorem c5_timer_entry_on_clock_out (s : AppState) (now : ℤ) (p : String)
    (sess : ActiveSession) (eh : ℚ)
    (hrun : get_active_session s p = some sess)
    (heh : eh = max 0 (((now - sess.start_at : ℤ) : ℚ) / 3600))
    (hpos : 0 < eh) :
    clock_out s now p =
      (.ok eh,
        log_event { s with active_sessions :=
            s.active_sessions.filter (fun r => !(r.person == p)) }
          now p sess.log_date eh "Clocked session" "timer") ∧
    ((clock_out s now p).2).logs =
      s.logs ++ [⟨now, sess.log_date, p, eh, "Clocked session", "timer"⟩] ∧
    get_active_session ((clock_out s now p).2) p = none ∧
    ((clock_out s now p).2).notifs = s.notifs := by
  have hmm : max 0 (max 0 (((now - sess.start_at : ℤ) : ℚ) / 3600)) = eh := by
    rw [heh]; exact max_eq_right (le_max_left _ _)
  have hco : clock_out s now p =
      (.ok eh,
        log_event { s with active_sessions :=
            s.active_sessions.filter (fun r => !(r.person == p)) }
          now p sess.log_date eh "Clocked session" "timer") := by
    simp only [clock_out, stop_session, hrun]
    rw [hmm, if_pos hpos]
  refine ⟨hco, ?_, ?_, ?_⟩
  · rw [hco]; simp [log_event]
  · rw [hco]
    simp only [log_event]
    exact find?_filter_not_person s.active_sessions p
  · rw [hco]; simp [log_event]

/-- Witness for the amended C5: Carson clocks in at 2024-01-05T09:00:00Z
(ordinal 738890) and out at 09:30:00Z — exactly one `timer` entry with
date 2024-01-05 and hours 1/2 is written, and 1/2 is returned. -/
theorem c5_timer_entry_on_clock_out_witness :
    (0 : ℚ) < 1/2 ∧
    (clock_out ⟨[], [⟨"Carson", 738890 * 86400 + 9 * 3600, 738890⟩], []⟩
        (738890 * 86400 + 9 * 3600 + 1800) "Carson" =
      (.ok (1/2),
        log_event { (⟨[], [⟨"Carson", 738890 * 86400 + 9 * 3600, 738890⟩], []⟩ : AppState) with
            active_sessions :=
              ([⟨"Carson", 738890 * 86400 + 9 * 3600, 738890⟩] : List ActiveSession).filter
                (fun r => !(r.person == "Carson")) }
          (738890 * 86400 + 9 * 3600 + 1800) "Carson" 738890 (1/2) "Clocked session" "timer") ∧
    ((clock_out ⟨[], [⟨"Carson", 738890 * 86400 + 9 * 3600, 738890⟩], []⟩
        (738890 * 86400 + 9 * 3600 + 1800) "Carson").2).logs =
      [] ++ [⟨738890 * 86400 + 9 * 3600 + 1800, 738890, "Carson", 1/2, "Clocked session", "timer"⟩] ∧
    get_active_session ((clock_out ⟨[], [⟨"Carson", 738890 * 86400 + 9 * 3600, 738890⟩], []⟩
        (738890 * 86400 + 9 * 3600 + 1800) "Carson").2) "Carson" = none ∧
    ((clock_out ⟨[], [⟨"Carson", 738890 * 86400 + 9 * 3600, 738890⟩], []⟩
        (738890 * 86400 + 9 * 3600 + 1800) "Carson").2).notifs = []) :=
  ⟨by norm_num,
    c5_timer_entry_on_clock_out _ (738890 * 86400 + 9 * 3600 + 1800) "Carson"
      ⟨"Carson", 738890 * 86400 + 9 * 3600, 738890⟩ (1/2)
      (by decide) (by norm_num) (by norm_num)⟩

/-- C10: a clock-out of a running timer whose clamped elapsed hours are
exactly zero (including clock skew, where `now` precedes the start instant)
resets the timer state but writes no ledger entry: the zero-length session
is dropped by the `elapsed_hours > 0` guard rather than persisted. -/
theorem c10_zero_session_dropped (s : AppState) (now : ℤ) (p : String)
    (sess : ActiveSession)
    (hrun : get_active_session s p = some sess)
    (hzero : max 0 (((now - sess.start_at : ℤ) : ℚ) / 3600) = 0) :
    clock_out s now p =
      (.ok 0, { s with active_sessions :=
          s.active_sessions.filter (fun r => !(r.person == p)) }) ∧
    ((clock_out s now p).2).logs = s.logs ∧
    get_active_session ((clock_out s now p).2) p = none := by
  have hco : clock_out s now p =
      (.ok 0, { s with active_sessions :=
          s.active_sessions.filter (fun r => !(r.person == p)) }) := by
    simp only [clock_out, stop_session, hrun, hzero]
    norm_num
  refine ⟨hco, by rw [hco], ?_⟩
  rw [hco]
  exact find?_filter_not_person s.active_sessions p

/-- Witness for C10: Kaden's timer started at instant 3600; a skewed
clock-out at instant 0 resets the timer and leaves the ledger unchanged. -/
theorem c10_zero_session_dropped_witness :
    max (0 : ℚ) (((0 - 3600 : ℤ) : ℚ) / 3600) = 0 ∧
    (clock_out ⟨[⟨0, 738890, "Drew", 2, "w", "timer"⟩], [⟨"Kaden", 3600, 738890⟩], []⟩ 0 "Kaden" =
      (.ok 0, { (⟨[⟨0, 738890, "Drew", 2, "w", "timer"⟩], [⟨"Kaden", 3600, 738890⟩], []⟩ : AppState) with
          active_sessions :=
            ([⟨"Kaden", 3600, 738890⟩] : List ActiveSession).filter
              (fun r => !(r.person == "Kaden")) }) ∧
    ((clock_out ⟨[⟨0, 738890, "Drew", 2, "w", "timer"⟩], [⟨"Kaden", 3600, 738890⟩], []⟩ 0 "Kaden").2).logs =
      [⟨0, 738890, "Drew", 2, "w", "timer"⟩] ∧
    get_active_session
      ((clock_out ⟨[⟨0, 738890, "Drew", 2, "w", "timer"⟩], [⟨"Kaden", 3600, 738890⟩], []⟩ 0 "Kaden").2)
      "Kaden" = none) :=
  ⟨by norm_num,
    c10_zero_session_dropped _ 0 "Kaden" ⟨"Kaden", 3600, 738890⟩
      (by decide) (by norm_num)⟩
